import Mathlib

/-!
Verification of the queue-insights service (`app/services/queue_insights.py`).

The Python service is embedded shallowly:

* `Observation` mirrors the fields of `QueueObservation` that the service
  reads (`department`, `observed_at`, `number_of_patients`,
  `average_wait_minutes`, `notes`).  Well-formed observations carry
  non-negative integer counts, so the counts are `Nat`.
* Python's insertion-ordered `defaultdict` is an association list built by
  `insertObs`; `dept_stats`/`dept_averages` are the aggregation loop and the
  averages pass of `_generate_rule_based_insights`.
* Division producing the float averages is modelled exactly over `ℚ`;
  the sums feeding the single division are exact integer sums in Python as
  well, so the order-sensitive behaviour is identical.
* Python's `max(..., key=...)` (first maximal element wins) is `pyMax`.
* The OpenAI round trip inside `_generate_ai_insights` is an oracle
  argument: `none` models an exception raised anywhere inside the method
  (missing library, transport error, malformed response object), and
  `some content` models a successful call whose first choice message
  content is `content`; the method then returns `content.strip()`.
-/

namespace QueueInsights

/-- Timestamp carried by `observed_at`; the service only ever formats it
(with `strftime`), so calendar fields suffice. -/
structure Timestamp where
  year : Nat
  month : Nat
  day : Nat
  hour : Nat
  minute : Nat
  deriving DecidableEq

/-- The fields of `QueueObservation` read by the service. -/
structure Observation where
  department : String
  observed_at : Timestamp
  number_of_patients : Nat
  average_wait_minutes : Nat
  notes : Option String
  deriving DecidableEq

/-- The per-department accumulator dictionary value of
`_generate_rule_based_insights` (lines 178-195). -/
structure DeptAcc where
  total_patients : Nat
  total_wait : Nat
  count : Nat
  max_wait : Nat
  observations : List Observation
  deriving DecidableEq

/-- The per-department averages dictionary value (lines 198-205). -/
structure DeptAverages where
  avg_patients : ℚ
  avg_wait : ℚ
  max_wait : Nat
  count : Nat
  deriving DecidableEq

/-- The `defaultdict` default value (lines 178-184). -/
def emptyAcc : DeptAcc :=
  { total_patients := 0, total_wait := 0, count := 0, max_wait := 0, observations := [] }

/-- One iteration of the aggregation loop body (lines 186-195). -/
def updateAcc (a : DeptAcc) (o : Observation) : DeptAcc :=
  { total_patients := a.total_patients + o.number_of_patients
    total_wait := a.total_wait + o.average_wait_minutes
    count := a.count + 1
    max_wait := max a.max_wait o.average_wait_minutes
    observations := a.observations ++ [o] }

/-- Effect of one loop iteration on the insertion-ordered dictionary:
update the entry for `o.department` in place, or append a fresh entry. -/
def insertObs (m : List (String × DeptAcc)) (o : Observation) : List (String × DeptAcc) :=
  match m with
  | [] => [(o.department, updateAcc emptyAcc o)]
  | (k, a) :: rest =>
    if k = o.department then (k, updateAcc a o) :: rest
    else (k, a) :: insertObs rest o

/-- The `dept_stats` dictionary after the aggregation loop (lines 178-195). -/
def dept_stats (observations : List Observation) : List (String × DeptAcc) :=
  observations.foldl insertObs []

/-- The averages computation for one department (lines 200-205). -/
def toAverages (a : DeptAcc) : DeptAverages :=
  { avg_patients := (a.total_patients : ℚ) / (a.count : ℚ)
    avg_wait := (a.total_wait : ℚ) / (a.count : ℚ)
    max_wait := a.max_wait
    count := a.count }

/-- The `dept_averages` dictionary (lines 198-205), in insertion order. -/
def dept_averages (observations : List Observation) : List (String × DeptAverages) :=
  (dept_stats observations).map (fun p => (p.1, toAverages p.2))

/-- Ordinary dictionary lookup on the insertion-ordered association list. -/
def lookupA {α : Type} : List (String × α) → String → Option α
  | [], _ => none
  | (k, a) :: rest, d => if k = d then some a else lookupA rest d

/-- The statistics `dept_averages` assigns to department `d`. -/
def lookupAvg (observations : List Observation) (d : String) : Option DeptAverages :=
  lookupA (dept_averages observations) d

/-- Python's `max(x :: ys, key=f)`: scan left to right, replacing the
current best only when the new key is strictly larger, so the first
maximal element wins. -/
def pyMax {α : Type} (f : α → ℚ) (x : α) : List α → α
  | [] => x
  | y :: ys => pyMax f (if f x < f y then y else x) ys

/-- `max(..., key=...)` over a possibly empty list (raises in Python on
empty input, hence `Option`). -/
def pyMaxOpt {α : Type} (f : α → ℚ) : List α → Option α
  | [] => none
  | x :: xs => some (pyMax f x xs)

/-- `highest_wait_dept` (lines 207-211). -/
def highest_wait_dept (observations : List Observation) : Option (String × DeptAverages) :=
  pyMaxOpt (fun p => p.2.avg_wait) (dept_averages observations)

/-- `highest_volume_dept` (lines 213-217). -/
def highest_volume_dept (observations : List Observation) : Option (String × DeptAverages) :=
  pyMaxOpt (fun p => p.2.avg_patients) (dept_averages observations)

/-- The bottleneck comprehension (lines 247-251) over a given averages
dictionary: departments with `avg_wait` strictly above 60 minutes, in
iteration order. -/
def bottlenecksOf (das : List (String × DeptAverages)) : List String :=
  (das.filter (fun p => decide (p.2.avg_wait > 60))).map Prod.fst

/-- `bottleneck_depts` (lines 247-251). -/
def bottleneck_depts (observations : List Observation) : List String :=
  bottlenecksOf (dept_averages observations)

/-- Index of the first observation for department `d` in the input list. -/
def firstIdx (observations : List Observation) (d : String) : Nat :=
  observations.findIdx (fun o => o.department == d)

/-- The keys of an association list, in iteration order. -/
def keysOf {α : Type} (m : List (String × α)) : List String :=
  m.map Prod.fst

/-- Two-digit zero padding used by `strftime` fields `%m`/`%d`. -/
def pad2 (n : Nat) : String :=
  if n < 10 then "0" ++ toString n else toString n

/-- Four-digit zero padding used by `strftime` field `%Y`. -/
def pad4 (n : Nat) : String :=
  if n < 10 then "000" ++ toString n
  else if n < 100 then "00" ++ toString n
  else if n < 1000 then "0" ++ toString n
  else toString n

/-- `observed_at.strftime('%Y-%m-%d')`. -/
def formatYMD (t : Timestamp) : String :=
  pad4 t.year ++ "-" ++ pad2 t.month ++ "-" ++ pad2 t.day

/-- Round to the nearest integer, ties to even, on exact rationals:
the decimal rounding performed by `format(x, '.1f')`. -/
def roundHalfEven (q : ℚ) : ℤ :=
  let f := ⌊q⌋
  if q - f < 1/2 then f
  else if 1/2 < q - f then f + 1
  else if f % 2 = 0 then f else f + 1

/-- The `'{:.1f}'` rendering of a non-negative average. -/
def formatQ1 (q : ℚ) : String :=
  let n := roundHalfEven (q * 10)
  toString (n / 10) ++ "." ++ toString (n % 10)

/-- Python's `sep.join(parts)`. -/
def pyJoin (s : String) : List String → String
  | [] => ""
  | a :: as => as.foldl (fun acc b => acc ++ s ++ b) a

/-- Header line of the rule-based insight (line 224). -/
def header_string : String := "**Queue Insights Analysis** (Rule-Based)"

/-- Data-summary header (line 225). -/
def summary_header_string : String := "\n**Data Summary:**"

/-- Observation/department count line (line 226). -/
def analyzed_string (nObs nDepts : Nat) : String :=
  "- Analyzed " ++ toString nObs ++ " observations across " ++ toString nDepts
    ++ " department(s)"

/-- Time-period line (line 227): oldest (last input element) to newest
(first input element). -/
def period_string (a b : String) : String :=
  "- Time period: " ++ a ++ " to " ++ b

/-- Key-findings header (line 228). -/
def findings_header_string : String := "\n**Key Findings:**"

/-- Finding 1 (lines 232-236). -/
def finding1_string (hw : String × DeptAverages) : String :=
  "1. **Longest Wait Times:** " ++ hw.1 ++ " has an average wait time of "
    ++ formatQ1 hw.2.avg_wait ++ " minutes (max: " ++ toString hw.2.max_wait ++ " minutes)"

/-- Finding 2 (lines 239-244). -/
def finding2_string (hv : String × DeptAverages) : String :=
  "2. **Highest Patient Volume:** " ++ hv.1 ++ " averages "
    ++ formatQ1 hv.2.avg_patients ++ " patients per observation"

/-- Finding 3 (lines 253-257). -/
def finding3_string (bd : List String) : String :=
  "3. **Potential Bottlenecks:** The following departments exceed 60 minutes average wait: "
    ++ pyJoin ", " bd

/-- Recommendation header (line 260). -/
def rec_header_string : String := "\n**Recommendation:**"

/-- Staffing-tier recommendation (lines 262-265). -/
def staffing_string (d : String) : String :=
  "Consider increasing staffing or adjusting scheduling for " ++ d
    ++ " to reduce wait times. Peak periods may benefit from additional resources."

/-- Monitoring-tier recommendation (lines 267-270). -/
def monitoring_string (d : String) : String :=
  "Monitor " ++ d
    ++ " closely as wait times are elevated. Proactive scheduling adjustments may prevent future bottlenecks."

/-- Status-quo recommendation (lines 272-275). -/
def status_quo_string : String :=
  "Current wait times are within acceptable ranges. Continue monitoring for trends and consider preventive measures during peak hours."

/-- Trailing disclaimer (lines 278-281). -/
def note_string : String :=
  "\n*Note: This analysis uses rule-based heuristics. For AI-powered insights, configure an OpenAI API key.*"

/-- The recommendation branch (lines 261-275): strictly above 60 minutes
selects staffing, strictly above 30 selects monitoring, otherwise the
status quo. -/
def recommendation_string (hw_dept : String) (avg_wait : ℚ) : String :=
  if avg_wait > 60 then staffing_string hw_dept
  else if avg_wait > 30 then monitoring_string hw_dept
  else status_quo_string

/-- The `insight_parts` list (lines 219-281), built from an averages
dictionary and the observation list.  Conditional `append`s are written
as conditional singleton segments.  The second branch is unreachable
when the service is called as in the source (non-empty input); in Python
both `max` over the empty dictionary and `observations[-1]` would raise
there. -/
def insight_parts_core (das : List (String × DeptAverages))
    (observations : List Observation) : List String :=
  match das, observations with
  | da :: rest, o :: os =>
    let hw := pyMax (fun p => p.2.avg_wait) da rest
    let hv := pyMax (fun p => p.2.avg_patients) da rest
    [header_string,
     summary_header_string,
     analyzed_string (o :: os).length (da :: rest).length,
     period_string (formatYMD ((o :: os).getLast (List.cons_ne_nil o os)).observed_at)
       (formatYMD o.observed_at),
     findings_header_string,
     finding1_string hw]
    ++ (if hv.1 ≠ hw.1 then [finding2_string hv] else [])
    ++ (if bottlenecksOf (da :: rest) ≠ [] then [finding3_string (bottlenecksOf (da :: rest))] else [])
    ++ [rec_header_string, recommendation_string hw.1 hw.2.avg_wait, note_string]
  | _, _ => []

/-- `insight_parts` for an observation list. -/
def insight_parts (observations : List Observation) : List String :=
  insight_parts_core (dept_averages observations) observations

/-- `_generate_rule_based_insights` (lines 161-283). -/
def generate_rule_based_insights (observations : List Observation) : String :=
  pyJoin "\n" (insight_parts observations)

/-- The fixed empty-input message (line 71). -/
def no_data_message : String :=
  "No observations available for analysis. Please add queue observations first."

/-- Python truthiness of the configured `OPENAI_API_KEY`
(`Optional[str]`, default `None`): `None` and the empty string are falsy. -/
def pyTruthy : Option String → Bool
  | none => false
  | some s => s ≠ ""

/-- `_generate_ai_insights` (lines 91-159) against the AI oracle:
`none` models an exception raised anywhere inside the method, `some c`
a successful API call whose first choice message content is `c`; the
method returns `c.strip()` (line 158). -/
def generate_ai_insights (outcome : Option String) : Option String :=
  outcome.map String.trim

/-- `generate_insights` (lines 51-89): empty-input short circuit, AI
attempt guarded by the truthy API key with exception fallback, and the
rule-based fallback triple. -/
def generate_insights (api_key : Option String) (model : String)
    (outcome : Option String) (observations : List Observation) :
    String × Bool × String :=
  if observations.isEmpty then (no_data_message, false, "rule-based")
  else if pyTruthy api_key then
    match generate_ai_insights outcome with
    | some insight_text => (insight_text, true, model)
    | none => (generate_rule_based_insights observations, false, "rule-based")
  else (generate_rule_based_insights observations, false, "rule-based")

/-- The aggregation loop with the traversed observation list threaded as
mutable state: each iteration reads the current observation and updates
only the dictionary, so the state component collects exactly the
elements visited, in order. -/
def dept_stats_st (observations : List Observation) :
    List (String × DeptAcc) × List Observation :=
  observations.foldl (fun st o => (insertObs st.1 o, st.2 ++ [o])) ([], [])

/-- `_generate_rule_based_insights` with the observation list threaded
as state. -/
def generate_rule_based_insights_st (observations : List Observation) :
    String × List Observation :=
  let s := dept_stats_st observations
  (pyJoin "\n" (insight_parts_core (s.1.map (fun p => (p.1, toAverages p.2))) s.2), s.2)

/-- `generate_insights` with the caller's observation list threaded as
mutable state; every statement of the source only reads the list
(emptiness test, iteration, indexing, `len`), and the loop is the
state-threaded fold above. -/
def generate_insights_st (api_key : Option String) (model : String)
    (outcome : Option String) (observations : List Observation) :
    (String × Bool × String) × List Observation :=
  if observations.isEmpty then ((no_data_message, false, "rule-based"), observations)
  else if pyTruthy api_key then
    match generate_ai_insights outcome with
    | some insight_text => ((insight_text, true, model), observations)
    | none =>
      let r := generate_rule_based_insights_st observations
      ((r.1, false, "rule-based"), r.2)
  else
    let r := generate_rule_based_insights_st observations
    ((r.1, false, "rule-based"), r.2)

/-- First two characters of a string, the discriminator separating the
fixed section prefixes of the insight text. -/
def strHead2 (s : String) : List Char :=
  s.data.take 2

/-- Noon timestamp on a given calendar day. -/
def mkTime (y m d : Nat) : Timestamp :=
  ⟨y, m, d, 12, 0⟩

/-- Concrete input: one emergency-room observation with a 45-minute wait. -/
def obsC1 : List Observation :=
  [⟨"ER", mkTime 2025 10 1, 5, 45, none⟩]

/-- Concrete input: one radiology observation with a 20-minute wait. -/
def obsC2 : List Observation :=
  [⟨"Radiology", mkTime 2025 10 2, 3, 20, none⟩]

/-- Concrete input with an interleaved department for permutation tests. -/
def obsC4a : List Observation :=
  [⟨"ER", mkTime 2025 10 3, 5, 60, none⟩,
   ⟨"Lab", mkTime 2025 10 2, 2, 10, none⟩,
   ⟨"ER", mkTime 2025 10 1, 7, 30, none⟩]

/-- A permutation (reversal) of `obsC4a`. -/
def obsC4b : List Observation :=
  [⟨"ER", mkTime 2025 10 1, 7, 30, none⟩,
   ⟨"Lab", mkTime 2025 10 2, 2, 10, none⟩,
   ⟨"ER", mkTime 2025 10 3, 5, 60, none⟩]

/-- Concrete input: two departments tied on `avg_wait` (60 each). -/
def obsC5 : List Observation :=
  [⟨"A", mkTime 2025 10 2, 5, 60, none⟩,
   ⟨"B", mkTime 2025 10 1, 7, 60, none⟩]

/-- Concrete input: one department at exactly the 60-minute threshold and
one above it. -/
def obsC6 : List Observation :=
  [⟨"ER", mkTime 2025 10 2, 5, 60, none⟩,
   ⟨"ICU", mkTime 2025 10 1, 5, 90, none⟩]

/-- Concrete input: a single department whose `avg_wait` is exactly 30. -/
def obsC7 : List Observation :=
  [⟨"ER", mkTime 2025 10 1, 5, 30, none⟩]

/-- The §8 scenario: three ER observations, newest first, with waits
[30, 90, 60] and patient counts [5, 10, 8]. -/
def obsC8 : List Observation :=
  [⟨"ER", mkTime 2025 10 3, 5, 30, none⟩,
   ⟨"ER", mkTime 2025 10 2, 10, 90, none⟩,
   ⟨"ER", mkTime 2025 10 1, 8, 60, none⟩]

/-- Concrete input: one department well above the bottleneck threshold. -/
def obsC9 : List Observation :=
  [⟨"ER", mkTime 2025 10 1, 5, 90, none⟩]

theorem str_ne_of_head2 {s t : String} {a b : List Char}
    (hs : strHead2 s = a) (ht : strHead2 t = b) (hab : a ≠ b) : s ≠ t := by
  intro h
  subst hs
  subst ht
  exact hab (congrArg strHead2 h)

theorem pyJoin_foldl_data (s : String) :
    ∀ (as : List String) (acc : String),
      ∃ t, (as.foldl (fun acc b => acc ++ s ++ b) acc).data = acc.data ++ t := by
  intro as
  induction as with
  | nil => intro acc; exact ⟨[], by simp⟩
  | cons b bs ih =>
    intro acc
    obtain ⟨t, ht⟩ := ih (acc ++ s ++ b)
    refine ⟨s.data ++ b.data ++ t, ?_⟩
    simp only [List.foldl_cons] at ht ⊢
    rw [ht]
    simp [String.data_append, List.append_assoc]

theorem pyJoin_cons_data (s a : String) (as : List String) :
    ∃ t, (pyJoin s (a :: as)).data = a.data ++ t :=
  pyJoin_foldl_data s as a

theorem pyJoin_cons_ne_empty (s a : String) (as : List String)
    (h : a.data ≠ []) : pyJoin s (a :: as) ≠ "" := by
  obtain ⟨t, ht⟩ := pyJoin_cons_data s a as
  intro he
  rw [he] at ht
  cases ha : a.data with
  | nil => exact h ha
  | cons c cs => rw [ha] at ht; simp at ht

theorem pyMax_le {α : Type} (f : α → ℚ) :
    ∀ (ys : List α) (x : α), ∀ y ∈ x :: ys, f y ≤ f (pyMax f x ys) := by
  intro ys
  induction ys with
  | nil =>
    intro x y hy
    rcases List.mem_singleton.mp hy with rfl
    exact le_refl _
  | cons z zs ih =>
    intro x y hy
    have hstep : f x ≤ f (if f x < f z then z else x) ∧ f z ≤ f (if f x < f z then z else x) := by
      by_cases hxz : f x < f z
      · simp [hxz, le_of_lt hxz]
      · simp [hxz, le_of_not_lt hxz]
    have hx' : f (if f x < f z then z else x) ≤ f (pyMax f x (z :: zs)) := by
      show f (if f x < f z then z else x) ≤ f (pyMax f (if f x < f z then z else x) zs)
      exact ih _ _ (List.mem_cons_self _ _)
    rcases List.mem_cons.mp hy with rfl | hy
    · exact le_trans hstep.1 hx'
    · rcases List.mem_cons.mp hy with rfl | hy
      · exact le_trans hstep.2 hx'
      · exact ih _ _ (List.mem_cons_of_mem _ hy)

theorem pyMax_decomp {α : Type} (f : α → ℚ) :
    ∀ (ys : List α) (x : α),
      ∃ pre suf, x :: ys = pre ++ pyMax f x ys :: suf ∧
        ∀ z ∈ pre, f z < f (pyMax f x ys) := by
  intro ys
  induction ys with
  | nil => intro x; exact ⟨[], [], rfl, by simp⟩
  | cons z zs ih =>
    intro x
    by_cases hxz : f x < f z
    · obtain ⟨pre, suf, heq, hlt⟩ := ih z
      have hm : pyMax f x (z :: zs) = pyMax f z zs := by
        show pyMax f (if f x < f z then z else x) zs = pyMax f z zs
        rw [if_pos hxz]
      refine ⟨x :: pre, suf, ?_, ?_⟩
      · rw [hm, List.cons_append, ← heq]
      · intro w hw
        rw [hm]
        rcases List.mem_cons.mp hw with hwx | hwpre
        · rw [hwx]
          exact lt_of_lt_of_le hxz (pyMax_le f zs z z (List.mem_cons_self _ _))
        · exact hlt w hwpre
    · obtain ⟨pre, suf, heq, hlt⟩ := ih x
      have hm : pyMax f x (z :: zs) = pyMax f x zs := by
        show pyMax f (if f x < f z then z else x) zs = pyMax f x zs
        rw [if_neg hxz]
      cases pre with
      | nil =>
        have hx : pyMax f x zs = x := by
          have h1 := congrArg (fun l => l.head?) heq
          simpa using h1.symm
        refine ⟨[], z :: zs, ?_, by simp⟩
        simp [hm, hx]
      | cons p ps =>
        have hx : p = x := by
          have h1 := congrArg (fun l => l.head?) heq
          simpa using h1.symm
        have htail : zs = ps ++ pyMax f x zs :: suf := by
          have h1 := congrArg List.tail heq
          simpa using h1
        refine ⟨x :: z :: ps, suf, ?_, ?_⟩
        · rw [hm]
          simpa using congrArg (fun l => x :: z :: l) htail
        · intro w hw
          rw [hm]
          have hxmax : f x < f (pyMax f x zs) := by
            have h2 := hlt p (List.mem_cons_self _ _)
            rwa [hx] at h2
          rcases List.mem_cons.mp hw with hwx | hw2
          · rw [hwx]; exact hxmax
          · rcases List.mem_cons.mp hw2 with hwz | hwps
            · rw [hwz]
              exact lt_of_le_of_lt (le_of_not_lt hxz) hxmax
            · exact hlt w (List.mem_cons_of_mem _ hwps)

theorem pyMax_mem {α : Type} (f : α → ℚ) (ys : List α) (x : α) :
    pyMax f x ys ∈ x :: ys := by
  obtain ⟨pre, suf, heq, -⟩ := pyMax_decomp f ys x
  rw [heq]
  simp

theorem keysOf_insertObs (m : List (String × DeptAcc)) (o : Observation) :
    keysOf (insertObs m o) =
      if o.department ∈ keysOf m then keysOf m else keysOf m ++ [o.department] := by
  induction m with
  | nil => simp [insertObs, keysOf]
  | cons p rest ih =>
    obtain ⟨k, a⟩ := p
    by_cases hk : k = o.department
    · subst hk
      simp [insertObs, keysOf]
    · have hne : o.department ≠ k := fun h => hk h.symm
      have hstep : insertObs ((k, a) :: rest) o = (k, a) :: insertObs rest o := by
        simp [insertObs, hk]
      rw [hstep]
      show k :: keysOf (insertObs rest o) = _
      by_cases hm : o.department ∈ keysOf rest
      · rw [ih, if_pos hm]
        have hmem : o.department ∈ keysOf ((k, a) :: rest) := by
          show o.department ∈ k :: keysOf rest
          exact List.mem_cons_of_mem _ hm
        rw [if_pos hmem]
        rfl
      · rw [ih, if_neg hm]
        have hnotin : o.department ∉ keysOf ((k, a) :: rest) := by
          show o.department ∉ k :: keysOf rest
          simp [List.mem_cons, hne, hm]
        rw [if_neg hnotin]
        rfl

theorem mem_keysOf_foldl :
    ∀ (l : List Observation) (m : List (String × DeptAcc)) (d : String),
      d ∈ keysOf (l.foldl insertObs m) ↔
        d ∈ keysOf m ∨ d ∈ l.map (fun o => o.department) := by
  intro l
  induction l with
  | nil => intro m d; simp
  | cons o l' ih =>
    intro m d
    rw [List.foldl_cons, ih (insertObs m o) d, keysOf_insertObs]
    by_cases hm : o.department ∈ keysOf m
    · rw [if_pos hm]
      simp only [List.map_cons, List.mem_cons]
      constructor
      · rintro (h | h)
        · exact Or.inl h
        · exact Or.inr (Or.inr h)
      · rintro (h | h | h)
        · exact Or.inl h
        · exact Or.inl (h ▸ hm)
        · exact Or.inr h
    · rw [if_neg hm]
      simp only [List.map_cons, List.mem_cons, List.mem_append, List.mem_singleton]
      tauto

theorem lookupA_insertObs (m : List (String × DeptAcc)) (o : Observation) (d : String) :
    lookupA (insertObs m o) d =
      if o.department = d then some (updateAcc ((lookupA m d).getD emptyAcc) o)
      else lookupA m d := by
  induction m with
  | nil =>
    by_cases hd : o.department = d
    · simp [insertObs, lookupA, hd]
    · simp [insertObs, lookupA, hd]
  | cons p rest ih =>
    obtain ⟨k, a⟩ := p
    by_cases hk : k = o.department
    · have hstep : insertObs ((k, a) :: rest) o = (k, updateAcc a o) :: rest := by
        simp [insertObs, hk]
      rw [hstep]
      by_cases hd : k = d
      · have hod : o.department = d := hk.symm.trans hd
        simp [lookupA, hd, hod]
      · have hod : ¬ o.department = d := fun h => hd (hk.trans h)
        simp [lookupA, hd, hod]
    · have hstep : insertObs ((k, a) :: rest) o = (k, a) :: insertObs rest o := by
        simp [insertObs, hk]
      rw [hstep]
      by_cases hd : k = d
      · have hod : ¬ o.department = d := fun h => hk (hd.trans h.symm)
        simp [lookupA, hd, hod]
      · simp [lookupA, hd, ih]

theorem lookupA_foldl_some :
    ∀ (l : List Observation) (m : List (String × DeptAcc)) (d : String) (a : DeptAcc),
      lookupA m d = some a →
      lookupA (l.foldl insertObs m) d =
        some ((l.filter (fun o => decide (o.department = d))).foldl updateAcc a) := by
  intro l
  induction l with
  | nil => intro m d a h; simpa using h
  | cons o l' ih =>
    intro m d a h
    rw [List.foldl_cons]
    by_cases hd : o.department = d
    · have hins : lookupA (insertObs m o) d = some (updateAcc a o) := by
        rw [lookupA_insertObs, if_pos hd, h]
        rfl
      rw [ih (insertObs m o) d (updateAcc a o) hins]
      simp [List.filter_cons, hd]
    · have hins : lookupA (insertObs m o) d = some a := by
        rw [lookupA_insertObs, if_neg hd]
        exact h
      rw [ih (insertObs m o) d a hins]
      simp [List.filter_cons, hd]

theorem lookupA_foldl_none :
    ∀ (l : List Observation) (m : List (String × DeptAcc)) (d : String),
      lookupA m d = none →
      lookupA (l.foldl insertObs m) d =
        if (l.filter (fun o => decide (o.department = d))) = [] then none
        else some ((l.filter (fun o => decide (o.department = d))).foldl updateAcc emptyAcc) := by
  intro l
  induction l with
  | nil => intro m d h; simpa using h
  | cons o l' ih =>
    intro m d h
    rw [List.foldl_cons]
    by_cases hd : o.department = d
    · have hins : lookupA (insertObs m o) d = some (updateAcc emptyAcc o) := by
        rw [lookupA_insertObs, if_pos hd, h]
        rfl
      rw [lookupA_foldl_some l' (insertObs m o) d (updateAcc emptyAcc o) hins]
      simp [List.filter_cons, hd]
    · have hins : lookupA (insertObs m o) d = none := by
        rw [lookupA_insertObs, if_neg hd]
        exact h
      rw [ih (insertObs m o) d hins]
      simp [List.filter_cons, hd]

theorem lookupA_dept_stats (observations : List Observation) (d : String) :
    lookupA (dept_stats observations) d =
      if (observations.filter (fun o => decide (o.department = d))) = [] then none
      else some ((observations.filter (fun o => decide (o.department = d))).foldl
        updateAcc emptyAcc) :=
  lookupA_foldl_none observations [] d rfl

theorem foldl_updateAcc_total_patients :
    ∀ (l : List Observation) (a : DeptAcc),
      (l.foldl updateAcc a).total_patients =
        a.total_patients + (l.map (fun o => o.number_of_patients)).sum := by
  intro l
  induction l with
  | nil => intro a; simp
  | cons o l' ih =>
    intro a
    rw [List.foldl_cons, ih]
    simp [updateAcc, Nat.add_assoc]

theorem foldl_updateAcc_total_wait :
    ∀ (l : List Observation) (a : DeptAcc),
      (l.foldl updateAcc a).total_wait =
        a.total_wait + (l.map (fun o => o.average_wait_minutes)).sum := by
  intro l
  induction l with
  | nil => intro a; simp
  | cons o l' ih =>
    intro a
    rw [List.foldl_cons, ih]
    simp [updateAcc, Nat.add_assoc]

theorem foldl_updateAcc_count :
    ∀ (l : List Observation) (a : DeptAcc),
      (l.foldl updateAcc a).count = a.count + l.length := by
  intro l
  induction l with
  | nil => intro a; simp
  | cons o l' ih =>
    intro a
    rw [List.foldl_cons, ih]
    simp [updateAcc]
    omega

theorem foldl_updateAcc_max_wait :
    ∀ (l : List Observation) (a : DeptAcc),
      (l.foldl updateAcc a).max_wait =
        (l.map (fun o => o.average_wait_minutes)).foldl max a.max_wait := by
  intro l
  induction l with
  | nil => intro a; simp
  | cons o l' ih =>
    intro a
    rw [List.foldl_cons, ih]
    simp [updateAcc]

theorem foldl_max_perm {l₁ l₂ : List Nat} (p : l₁.Perm l₂) :
    ∀ b : Nat, l₁.foldl max b = l₂.foldl max b := by
  induction p with
  | nil => intro b; rfl
  | cons x p ih => intro b; rw [List.foldl_cons, List.foldl_cons, ih]
  | swap x y l =>
    intro b
    simp only [List.foldl_cons]
    have h : max (max b y) x = max (max b x) y := by omega
    rw [h]
  | trans p₁ p₂ ih₁ ih₂ => intro b; rw [ih₁, ih₂]

theorem firstIdx_lt_of_mem :
    ∀ (pre rest : List Observation) (d : String),
      d ∈ pre.map (fun o => o.department) → firstIdx (pre ++ rest) d < pre.length := by
  intro pre
  induction pre with
  | nil => intro rest d h; simp at h
  | cons o pre' ih =>
    intro rest d h
    by_cases ho : o.department = d
    · simp [firstIdx, List.findIdx_cons, ho]
    · have hbeq : (o.department == d) = false := by
        simp [ho]
      rcases List.mem_cons.mp h with h1 | h1
      · exact absurd h1.symm ho
      · have := ih rest d h1
        simp only [List.cons_append, firstIdx, List.findIdx_cons, hbeq, cond_false]
        have h2 : firstIdx (pre' ++ rest) d < pre'.length := this
        simp only [firstIdx] at h2
        simpa [List.length_cons] using Nat.succ_lt_succ h2

theorem firstIdx_ge_of_not_mem :
    ∀ (pre rest : List Observation) (d : String),
      d ∉ pre.map (fun o => o.department) → pre.length ≤ firstIdx (pre ++ rest) d := by
  intro pre
  induction pre with
  | nil => intro rest d h; simp
  | cons o pre' ih =>
    intro rest d h
    have ho : ¬ o.department = d := by
      intro hc
      exact h (by simp [hc])
    have h1 : d ∉ pre'.map (fun o => o.department) := by
      intro hc
      exact h (List.mem_cons_of_mem _ hc)
    have hbeq : (o.department == d) = false := by simp [ho]
    have h2 := ih rest d h1
    simp only [List.cons_append, firstIdx, List.findIdx_cons, hbeq, cond_false]
    simp only [firstIdx] at h2
    simpa [List.length_cons] using Nat.succ_le_succ h2

theorem keys_pairwise_aux (full : List Observation) :
    ∀ (rest processed : List Observation) (m : List (String × DeptAcc)),
      full = processed ++ rest →
      (∀ d, d ∈ keysOf m ↔ d ∈ processed.map (fun o => o.department)) →
      (keysOf m).Pairwise (fun a b => firstIdx full a < firstIdx full b) →
      (keysOf (rest.foldl insertObs m)).Pairwise
        (fun a b => firstIdx full a < firstIdx full b) := by
  intro rest
  induction rest with
  | nil => intro processed m _ _ hp; simpa using hp
  | cons o rest' ih =>
    intro processed m hfull hinv hp
    rw [List.foldl_cons]
    by_cases hm : o.department ∈ keysOf m
    · refine ih (processed ++ [o]) (insertObs m o) ?_ ?_ ?_
      · rw [hfull, List.append_assoc]
        rfl
      · intro d
        rw [keysOf_insertObs, if_pos hm]
        rw [hinv d]
        simp only [List.map_append, List.mem_append, List.map_cons, List.map_nil,
          List.mem_singleton]
        constructor
        · exact fun h => Or.inl h
        · rintro (h | h)
          · exact h
          · rw [h]
            exact (hinv o.department).mp hm
      · rw [keysOf_insertObs, if_pos hm]
        exact hp
    · refine ih (processed ++ [o]) (insertObs m o) ?_ ?_ ?_
      · rw [hfull, List.append_assoc]
        rfl
      · intro d
        rw [keysOf_insertObs, if_neg hm]
        simp only [List.mem_append, List.mem_singleton, hinv d, List.map_append,
          List.map_cons, List.map_nil]
      · rw [keysOf_insertObs, if_neg hm]
        rw [List.pairwise_append]
        refine ⟨hp, List.pairwise_singleton _ _, ?_⟩
        intro a ha b hb
        rw [List.mem_singleton] at hb
        subst hb
        have hapre : a ∈ processed.map (fun o => o.department) := (hinv a).mp ha
        have hbpre : o.department ∉ processed.map (fun o => o.department) := by
          intro hc
          exact hm ((hinv o.department).mpr hc)
        have h1 : firstIdx (processed ++ (o :: rest')) a < processed.length :=
          firstIdx_lt_of_mem processed (o :: rest') a hapre
        have h2 : processed.length ≤ firstIdx (processed ++ (o :: rest')) o.department :=
          firstIdx_ge_of_not_mem processed (o :: rest') o.department hbpre
        rw [hfull]
        exact lt_of_lt_of_le h1 h2

theorem keys_pairwise (observations : List Observation) :
    (keysOf (dept_stats observations)).Pairwise
      (fun a b => firstIdx observations a < firstIdx observations b) := by
  have h := keys_pairwise_aux observations observations [] [] rfl
    (by intro d; simp [keysOf]) (by simp [keysOf])
  simpa [dept_stats] using h

theorem keys_nodup (observations : List Observation) :
    (keysOf (dept_stats observations)).Nodup := by
  refine (keys_pairwise observations).imp ?_
  intro a b hab
  intro he
  rw [he] at hab
  exact lt_irrefl _ hab

theorem lookupA_map {α β : Type} (g : α → β) :
    ∀ (m : List (String × α)) (d : String),
      lookupA (m.map (fun p => (p.1, g p.2))) d = (lookupA m d).map g := by
  intro m
  induction m with
  | nil => intro d; rfl
  | cons p rest ih =>
    intro d
    by_cases hd : p.1 = d
    · simp [lookupA, hd]
    · simp [lookupA, hd, ih]

theorem keysOf_dept_averages (observations : List Observation) :
    keysOf (dept_averages observations) = keysOf (dept_stats observations) := by
  simp [dept_averages, keysOf, List.map_map]

theorem lookupAvg_eq (observations : List Observation) (d : String) :
    lookupAvg observations d = (lookupA (dept_stats observations) d).map toAverages := by
  rw [lookupAvg, dept_averages, lookupA_map]

theorem lookupAvg_perm {obs₁ obs₂ : List Observation} (hperm : obs₁.Perm obs₂)
    (d : String) : lookupAvg obs₁ d = lookupAvg obs₂ d := by
  rw [lookupAvg_eq, lookupAvg_eq, lookupA_dept_stats, lookupA_dept_stats]
  have hpf : (obs₁.filter (fun o => decide (o.department = d))).Perm
      (obs₂.filter (fun o => decide (o.department = d))) := hperm.filter _
  by_cases h1 : obs₁.filter (fun o => decide (o.department = d)) = []
  · have h2 : obs₂.filter (fun o => decide (o.department = d)) = [] := by
      rw [h1] at hpf
      exact hpf.symm.eq_nil
    rw [if_pos h1, if_pos h2]
  · have h2 : ¬ obs₂.filter (fun o => decide (o.department = d)) = [] := by
      intro hc
      rw [hc] at hpf
      exact h1 hpf.eq_nil
    rw [if_neg h1, if_neg h2]
    have hsum_p : ((obs₁.filter (fun o => decide (o.department = d))).map
        (fun o => o.number_of_patients)).sum =
        ((obs₂.filter (fun o => decide (o.department = d))).map
        (fun o => o.number_of_patients)).sum :=
      (hpf.map _).sum_eq
    have hsum_w : ((obs₁.filter (fun o => decide (o.department = d))).map
        (fun o => o.average_wait_minutes)).sum =
        ((obs₂.filter (fun o => decide (o.department = d))).map
        (fun o => o.average_wait_minutes)).sum :=
      (hpf.map _).sum_eq
    have hlen : (obs₁.filter (fun o => decide (o.department = d))).length =
        (obs₂.filter (fun o => decide (o.department = d))).length :=
      hpf.length_eq
    have hmax : ((obs₁.filter (fun o => decide (o.department = d))).map
        (fun o => o.average_wait_minutes)).foldl max 0 =
        ((obs₂.filter (fun o => decide (o.department = d))).map
        (fun o => o.average_wait_minutes)).foldl max 0 :=
      foldl_max_perm (hpf.map _) 0
    have key : toAverages ((obs₁.filter (fun o => decide (o.department = d))).foldl
        updateAcc emptyAcc) =
        toAverages ((obs₂.filter (fun o => decide (o.department = d))).foldl
        updateAcc emptyAcc) := by
      simp only [toAverages, foldl_updateAcc_total_patients, foldl_updateAcc_total_wait,
        foldl_updateAcc_count, foldl_updateAcc_max_wait, emptyAcc]
      rw [hsum_p, hsum_w, hlen, hmax]
    exact congrArg some key

theorem dept_stats_ne_nil (observations : List Observation) (h : observations ≠ []) :
    dept_stats observations ≠ [] := by
  obtain ⟨o, os, rfl⟩ := List.exists_cons_of_ne_nil h
  intro hc
  have hmem : o.department ∈ keysOf (dept_stats (o :: os)) := by
    rw [dept_stats]
    exact (mem_keysOf_foldl (o :: os) [] o.department).mpr (Or.inr (by simp))
  rw [hc] at hmem
  simp [keysOf] at hmem

theorem dept_averages_ne_nil (observations : List Observation) (h : observations ≠ []) :
    dept_averages observations ≠ [] := by
  intro hc
  rw [dept_averages] at hc
  exact dept_stats_ne_nil observations h (List.map_eq_nil_iff.mp hc)

theorem insight_parts_core_cons (da : String × DeptAverages)
    (rest : List (String × DeptAverages)) (o : Observation) (os : List Observation) :
    insight_parts_core (da :: rest) (o :: os) =
      [header_string, summary_header_string,
       analyzed_string (o :: os).length (da :: rest).length,
       period_string (formatYMD ((o :: os).getLast (List.cons_ne_nil o os)).observed_at)
         (formatYMD o.observed_at),
       findings_header_string,
       finding1_string (pyMax (fun p => p.2.avg_wait) da rest)]
      ++ (if (pyMax (fun p => p.2.avg_patients) da rest).1 ≠
            (pyMax (fun p => p.2.avg_wait) da rest).1
          then [finding2_string (pyMax (fun p => p.2.avg_patients) da rest)] else [])
      ++ (if bottlenecksOf (da :: rest) ≠ []
          then [finding3_string (bottlenecksOf (da :: rest))] else [])
      ++ [rec_header_string,
          recommendation_string (pyMax (fun p => p.2.avg_wait) da rest).1
            (pyMax (fun p => p.2.avg_wait) da rest).2.avg_wait,
          note_string] := rfl

theorem highest_wait_eq (observations : List Observation) (da : String × DeptAverages)
    (rest : List (String × DeptAverages)) (h : dept_averages observations = da :: rest) :
    highest_wait_dept observations = some (pyMax (fun p => p.2.avg_wait) da rest) := by
  rw [highest_wait_dept, h]
  rfl

theorem highest_volume_eq (observations : List Observation) (da : String × DeptAverages)
    (rest : List (String × DeptAverages)) (h : dept_averages observations = da :: rest) :
    highest_volume_dept observations = some (pyMax (fun p => p.2.avg_patients) da rest) := by
  rw [highest_volume_dept, h]
  rfl

theorem insight_parts_head (observations : List Observation) (h : observations ≠ []) :
    ∃ restParts, insight_parts observations = header_string :: restParts := by
  obtain ⟨o, os, rfl⟩ := List.exists_cons_of_ne_nil h
  obtain ⟨da, rest, hda⟩ :=
    List.exists_cons_of_ne_nil (dept_averages_ne_nil (o :: os) (List.cons_ne_nil o os))
  rw [insight_parts, hda, insight_parts_core_cons]
  exact ⟨_, rfl⟩

theorem generate_rule_based_ne_empty (observations : List Observation)
    (h : observations ≠ []) : generate_rule_based_insights observations ≠ "" := by
  obtain ⟨restParts, hps⟩ := insight_parts_head observations h
  rw [generate_rule_based_insights, hps]
  exact pyJoin_cons_ne_empty _ _ _ (by decide)

theorem generate_insights_empty_input (api_key : Option String) (model : String)
    (outcome : Option String) :
    generate_insights api_key model outcome [] = (no_data_message, false, "rule-based") := rfl

theorem generate_insights_fallback (api_key : Option String) (model : String)
    (observations : List Observation) (h : observations ≠ []) :
    generate_insights api_key model none observations =
      (generate_rule_based_insights observations, false, "rule-based") := by
  obtain ⟨o, os, rfl⟩ := List.exists_cons_of_ne_nil h
  cases hk : pyTruthy api_key <;>
    simp [generate_insights, hk, generate_ai_insights, List.isEmpty_cons]

theorem generate_insights_ai (api_key : Option String) (model : String) (c : String)
    (observations : List Observation) (h : observations ≠ [])
    (hk : pyTruthy api_key = true) :
    generate_insights api_key model (some c) observations = (c.trim, true, model) := by
  obtain ⟨o, os, rfl⟩ := List.exists_cons_of_ne_nil h
  simp [generate_insights, hk, generate_ai_insights, List.isEmpty_cons]

theorem finding3_ne_rec (bd : List String) (d : String) (q : ℚ) :
    finding3_string bd ≠ recommendation_string d q := by
  rw [recommendation_string]
  split_ifs
  · exact fun hcontra => (by decide : (['3', '.'] : List Char) ≠ ['C', 'o']) (congrArg strHead2 hcontra)
  · exact fun hcontra => (by decide : (['3', '.'] : List Char) ≠ ['M', 'o']) (congrArg strHead2 hcontra)
  · exact fun hcontra => (by decide : (['3', '.'] : List Char) ≠ ['C', 'u']) (congrArg strHead2 hcontra)

theorem staffing_ne_rec_of_le (d e : String) (q : ℚ) (h : ¬ q > 60) :
    staffing_string d ≠ recommendation_string e q := by
  rw [recommendation_string, if_neg h]
  split_ifs
  · exact fun hcontra => (by decide : (['C', 'o'] : List Char) ≠ ['M', 'o']) (congrArg strHead2 hcontra)
  · exact fun hcontra => (by decide : (['C', 'o'] : List Char) ≠ ['C', 'u']) (congrArg strHead2 hcontra)

theorem finding3_mem_core_iff (da : String × DeptAverages)
    (rest : List (String × DeptAverages)) (o : Observation) (os : List Observation) :
    (finding3_string (bottlenecksOf (da :: rest)) ∈ insight_parts_core (da :: rest) (o :: os))
      ↔ bottlenecksOf (da :: rest) ≠ [] := by
  rw [insight_parts_core_cons]
  constructor
  · intro hmem
    by_cases hbn : bottlenecksOf (da :: rest) = []
    · exfalso
      rw [if_neg (not_not_intro hbn)] at hmem
      by_cases hc2 : (pyMax (fun p => p.2.avg_patients) da rest).1 ≠
          (pyMax (fun p => p.2.avg_wait) da rest).1
      · rw [if_pos hc2] at hmem
        simp only [List.mem_append, List.mem_cons, List.mem_singleton,
          List.not_mem_nil, or_false, false_or] at hmem
        rcases hmem with ((h | h | h | h | h | h) | h) | h | h | h
        · exact (by decide : (['3', '.'] : List Char) ≠ ['*', '*']) (congrArg strHead2 h)
        · exact (by decide : (['3', '.'] : List Char) ≠ ['\n', '*']) (congrArg strHead2 h)
        · exact (by decide : (['3', '.'] : List Char) ≠ ['-', ' ']) (congrArg strHead2 h)
        · exact (by decide : (['3', '.'] : List Char) ≠ ['-', ' ']) (congrArg strHead2 h)
        · exact (by decide : (['3', '.'] : List Char) ≠ ['\n', '*']) (congrArg strHead2 h)
        · exact (by decide : (['3', '.'] : List Char) ≠ ['1', '.']) (congrArg strHead2 h)
        · exact (by decide : (['3', '.'] : List Char) ≠ ['2', '.']) (congrArg strHead2 h)
        · exact (by decide : (['3', '.'] : List Char) ≠ ['\n', '*']) (congrArg strHead2 h)
        · exact finding3_ne_rec _ _ _ h
        · exact (by decide : (['3', '.'] : List Char) ≠ ['\n', '*']) (congrArg strHead2 h)
      · rw [if_neg hc2] at hmem
        simp only [List.mem_append, List.mem_cons, List.mem_singleton,
          List.not_mem_nil, or_false, false_or] at hmem
        rcases hmem with (h | h | h | h | h | h) | h | h | h
        · exact (by decide : (['3', '.'] : List Char) ≠ ['*', '*']) (congrArg strHead2 h)
        · exact (by decide : (['3', '.'] : List Char) ≠ ['\n', '*']) (congrArg strHead2 h)
        · exact (by decide : (['3', '.'] : List Char) ≠ ['-', ' ']) (congrArg strHead2 h)
        · exact (by decide : (['3', '.'] : List Char) ≠ ['-', ' ']) (congrArg strHead2 h)
        · exact (by decide : (['3', '.'] : List Char) ≠ ['\n', '*']) (congrArg strHead2 h)
        · exact (by decide : (['3', '.'] : List Char) ≠ ['1', '.']) (congrArg strHead2 h)
        · exact (by decide : (['3', '.'] : List Char) ≠ ['\n', '*']) (congrArg strHead2 h)
        · exact finding3_ne_rec _ _ _ h
        · exact (by decide : (['3', '.'] : List Char) ≠ ['\n', '*']) (congrArg strHead2 h)
    · exact hbn
  · intro hbn
    rw [if_pos hbn]
    simp

theorem staffing_mem_core_iff (da : String × DeptAverages)
    (rest : List (String × DeptAverages)) (o : Observation) (os : List Observation) :
    (staffing_string (pyMax (fun p => p.2.avg_wait) da rest).1 ∈
        insight_parts_core (da :: rest) (o :: os))
      ↔ (pyMax (fun p => p.2.avg_wait) da rest).2.avg_wait > 60 := by
  rw [insight_parts_core_cons]
  constructor
  · intro hmem
    by_cases hq : (pyMax (fun p => p.2.avg_wait) da rest).2.avg_wait > 60
    · exact hq
    · exfalso
      by_cases hc2 : (pyMax (fun p => p.2.avg_patients) da rest).1 ≠
          (pyMax (fun p => p.2.avg_wait) da rest).1
      all_goals by_cases hc3 : bottlenecksOf (da :: rest) ≠ []
      all_goals first
        | rw [if_pos hc2, if_pos hc3] at hmem
        | rw [if_pos hc2, if_neg hc3] at hmem
        | rw [if_neg hc2, if_pos hc3] at hmem
        | rw [if_neg hc2, if_neg hc3] at hmem
      all_goals
        simp only [List.mem_append, List.mem_cons, List.mem_singleton,
          List.not_mem_nil, or_false, false_or, or_assoc] at hmem
      all_goals
        repeat' obtain h | hmem := hmem
      all_goals first
        | exact (by decide : (['C', 'o'] : List Char) ≠ ['*', '*']) (congrArg strHead2 hmem)
        | exact (by decide : (['C', 'o'] : List Char) ≠ ['\n', '*']) (congrArg strHead2 hmem)
        | exact (by decide : (['C', 'o'] : List Char) ≠ ['-', ' ']) (congrArg strHead2 hmem)
        | exact (by decide : (['C', 'o'] : List Char) ≠ ['1', '.']) (congrArg strHead2 hmem)
        | exact (by decide : (['C', 'o'] : List Char) ≠ ['2', '.']) (congrArg strHead2 hmem)
        | exact (by decide : (['C', 'o'] : List Char) ≠ ['3', '.']) (congrArg strHead2 hmem)
        | exact staffing_ne_rec_of_le _ _ _ hq hmem
        | exact (by decide : (['C', 'o'] : List Char) ≠ ['*', '*']) (congrArg strHead2 h)
        | exact (by decide : (['C', 'o'] : List Char) ≠ ['\n', '*']) (congrArg strHead2 h)
        | exact (by decide : (['C', 'o'] : List Char) ≠ ['-', ' ']) (congrArg strHead2 h)
        | exact (by decide : (['C', 'o'] : List Char) ≠ ['1', '.']) (congrArg strHead2 h)
        | exact (by decide : (['C', 'o'] : List Char) ≠ ['2', '.']) (congrArg strHead2 h)
        | exact (by decide : (['C', 'o'] : List Char) ≠ ['3', '.']) (congrArg strHead2 h)
        | exact staffing_ne_rec_of_le _ _ _ hq h
  · intro hq
    have hrec : recommendation_string (pyMax (fun p => p.2.avg_wait) da rest).1
        (pyMax (fun p => p.2.avg_wait) da rest).2.avg_wait =
        staffing_string (pyMax (fun p => p.2.avg_wait) da rest).1 := by
      rw [recommendation_string, if_pos hq]
    rw [← hrec]
    simp

theorem dept_stats_st_aux :
    ∀ (l : List Observation) (acc1 : List (String × DeptAcc)) (acc2 : List Observation),
      l.foldl (fun st o => (insertObs st.1 o, st.2 ++ [o])) (acc1, acc2) =
        (l.foldl insertObs acc1, acc2 ++ l) := by
  intro l
  induction l with
  | nil => intro acc1 acc2; simp
  | cons o l' ih =>
    intro acc1 acc2
    rw [List.foldl_cons, List.foldl_cons, ih]
    simp

theorem dept_stats_st_eq (observations : List Observation) :
    dept_stats_st observations = (dept_stats observations, observations) := by
  rw [dept_stats_st, dept_stats_st_aux]
  rfl

theorem generate_rule_based_insights_st_eq (observations : List Observation) :
    generate_rule_based_insights_st observations =
      (generate_rule_based_insights observations, observations) := by
  rw [generate_rule_based_insights_st, dept_stats_st_eq]
  rfl

theorem mem_of_lookupA {α : Type} :
    ∀ (m : List (String × α)) (d : String) (a : α),
      lookupA m d = some a → (d, a) ∈ m := by
  intro m
  induction m with
  | nil => intro d a h; simp [lookupA] at h
  | cons p rest ih =>
    intro d a h
    by_cases hd : p.1 = d
    · obtain ⟨k, b⟩ := p
      simp only [lookupA, if_pos hd] at h
      rw [Option.some.injEq] at h
      have hk : k = d := hd
      rw [← hk, ← h]
      exact List.mem_cons_self _ _
    · obtain ⟨k, b⟩ := p
      simp only [lookupA, if_neg hd] at h
      exact List.mem_cons_of_mem _ (ih d a h)

theorem lookupA_of_mem_nodup {α : Type} :
    ∀ (m : List (String × α)), (keysOf m).Nodup →
      ∀ p ∈ m, lookupA m p.1 = some p.2 := by
  intro m
  induction m with
  | nil => intro _ p hp; simp at hp
  | cons q rest ih =>
    intro hnd p hp
    obtain ⟨k, b⟩ := q
    have hnd' : (keysOf rest).Nodup := by
      have := hnd
      simp only [keysOf, List.map_cons, List.nodup_cons] at this
      exact this.2
    have hknot : k ∉ keysOf rest := by
      have := hnd
      simp only [keysOf, List.map_cons, List.nodup_cons] at this
      exact this.1
    rcases List.mem_cons.mp hp with hpq | hprest
    · rw [hpq]
      simp [lookupA]
    · by_cases hd : k = p.1
      · exfalso
        apply hknot
        rw [hd]
        exact List.mem_map_of_mem Prod.fst hprest
      · simp only [lookupA, if_neg hd]
        exact ih hnd' p hprest

theorem keysOf_dept_averages_nodup (observations : List Observation) :
    (keysOf (dept_averages observations)).Nodup := by
  rw [keysOf_dept_averages]
  exact keys_nodup observations

theorem dept_averages_pairwise (observations : List Observation) :
    (dept_averages observations).Pairwise
      (fun a b => firstIdx observations a.1 < firstIdx observations b.1) := by
  have h1 := keys_pairwise observations
  rw [← keysOf_dept_averages] at h1
  simpa only [keysOf, List.pairwise_map] using h1

theorem pyMax_first_tie (observations : List Observation)
    (f : String × DeptAverages → ℚ) (da : String × DeptAverages)
    (rest : List (String × DeptAverages))
    (hda : dept_averages observations = da :: rest) :
    (∀ p ∈ dept_averages observations, f p ≤ f (pyMax f da rest)) ∧
    (∀ p ∈ dept_averages observations, f p = f (pyMax f da rest) →
      firstIdx observations (pyMax f da rest).1 ≤ firstIdx observations p.1) := by
  have hbound : ∀ p ∈ dept_averages observations, f p ≤ f (pyMax f da rest) := by
    intro p hp
    rw [hda] at hp
    exact pyMax_le f rest da p hp
  refine ⟨hbound, ?_⟩
  intro p hp heq
  have hpw := dept_averages_pairwise observations
  obtain ⟨pre, suf, hdecomp, hlt⟩ := pyMax_decomp f rest da
  rw [hda, hdecomp] at hp hpw
  rcases List.mem_append.mp hp with hppre | hpm
  · exact absurd heq (ne_of_lt (hlt p hppre))
  · rcases List.mem_cons.mp hpm with hpeq | hpsuf
    · rw [hpeq]
    · have hcons := (List.pairwise_append.mp hpw).2.1
      have hrel := (List.pairwise_cons.mp hcons).1 p hpsuf
      exact le_of_lt hrel

theorem mem_bottleneck_iff (observations : List Observation) (d : String)
    (s : DeptAverages) (hs : lookupAvg observations d = some s) :
    d ∈ bottleneck_depts observations ↔ s.avg_wait > 60 := by
  rw [bottleneck_depts, bottlenecksOf]
  constructor
  · intro hd
    obtain ⟨p, hpf, hpd⟩ := List.mem_map.mp hd
    obtain ⟨hpdas, hpred⟩ := List.mem_filter.mp hpf
    have hlp := lookupA_of_mem_nodup (dept_averages observations)
      (keysOf_dept_averages_nodup observations) p hpdas
    rw [hpd] at hlp
    rw [lookupAvg] at hs
    rw [hs, Option.some.injEq] at hlp
    rw [hlp]
    simpa using hpred
  · intro hgt
    have hmem : (d, s) ∈ dept_averages observations := by
      rw [lookupAvg] at hs
      exact mem_of_lookupA _ _ _ hs
    refine List.mem_map.mpr ⟨(d, s), List.mem_filter.mpr ⟨hmem, ?_⟩, rfl⟩
    simpa using hgt

/-- C1 (amended).  For every non-empty observation list, `generate_insights`
is total and returns: on the AI path (`is_ai_generated = true`) the
configured model name together with exactly the stripped AI content (which
the code does NOT check for emptiness), and on the rule-based path
(`is_ai_generated = false`) the fixed `"rule-based"` marker with a
non-empty text. -/
theorem claim_C1_amended (api_key : Option String) (model : String)
    (outcome : Option String) (observations : List Observation)
    (h : observations ≠ []) :
    ((generate_insights api_key model outcome observations).2.1 = true →
      (generate_insights api_key model outcome observations).2.2 = model ∧
      ∃ c, outcome = some c ∧
        (generate_insights api_key model outcome observations).1 = c.trim) ∧
    ((generate_insights api_key model outcome observations).2.1 = false →
      (generate_insights api_key model outcome observations).2.2 = "rule-based" ∧
      (generate_insights api_key model outcome observations).1 ≠ "") := by
  obtain ⟨o, os, rfl⟩ := List.exists_cons_of_ne_nil h
  by_cases hk : pyTruthy api_key = true
  · cases outcome with
    | none =>
      rw [generate_insights_fallback _ _ _ (List.cons_ne_nil o os)]
      constructor
      · intro hcontra
        simp at hcontra
      · intro _
        exact ⟨rfl, generate_rule_based_ne_empty _ (List.cons_ne_nil o os)⟩
    | some c =>
      rw [generate_insights_ai _ _ _ _ (List.cons_ne_nil o os) hk]
      constructor
      · intro _
        exact ⟨rfl, c, rfl, rfl⟩
      · intro hcontra
        simp at hcontra
  · have hkf : pyTruthy api_key = false := by
      cases hpk : pyTruthy api_key
      · rfl
      · exact absurd hpk hk
    have heq : generate_insights api_key model outcome (o :: os) =
        (generate_rule_based_insights (o :: os), false, "rule-based") := by
      simp [generate_insights, hkf, List.isEmpty_cons]
    rw [heq]
    constructor
    · intro hcontra
      simp at hcontra
    · intro _
      exact ⟨rfl, generate_rule_based_ne_empty _ (List.cons_ne_nil o os)⟩

/-- Witness for C1 (amended) at a concrete input. -/
theorem claim_C1_witness :
    (generate_insights none "gpt-4o-mini" none obsC1).2.2 = "rule-based" ∧
    (generate_insights none "gpt-4o-mini" none obsC1).1 ≠ "" :=
  (claim_C1_amended none "gpt-4o-mini" none obsC1 (by decide)).2 rfl

/-- C1 counterexample: with a configured key and an AI call that succeeds
with empty content, the returned text is the empty string, so the claim's
"text is a non-empty string" fails as stated. -/
theorem claim_C1_counterexample :
    obsC1 ≠ [] ∧
    (generate_insights (some "sk-test") "gpt-4o-mini" (some "") obsC1).1 = "" ∧
    (generate_insights (some "sk-test") "gpt-4o-mini" (some "") obsC1).2.1 = true :=
  ⟨by decide, by with_unfolding_all decide, by with_unfolding_all decide⟩

/-- C2 (amended).  With a configured (truthy) credential, whenever the AI
strategy raises an exception of any kind (transport error, missing client
library, malformed response object — modelled by the `none` oracle), the
result is exactly the rule-based triple and the failure never propagates;
an AI response that returns empty content successfully is NOT treated as
a failure by the code. -/
theorem claim_C2_amended (api_key : Option String) (model : String)
    (observations : List Observation) (h : observations ≠ [])
    (_hk : pyTruthy api_key = true) :
    generate_insights api_key model none observations =
      (generate_rule_based_insights observations, false, "rule-based") :=
  generate_insights_fallback api_key model observations h

/-- Witness for C2 (amended) at a concrete input. -/
theorem claim_C2_witness :
    generate_insights (some "sk-test") "gpt-4o-mini" none obsC2 =
      (generate_rule_based_insights obsC2, false, "rule-based") :=
  claim_C2_amended (some "sk-test") "gpt-4o-mini" obsC2 (by decide) (by decide)

/-- C2 counterexample: an empty AI response content is returned as a
successful AI result, not replaced by the rule-based triple. -/
theorem claim_C2_counterexample :
    generate_insights (some "sk-live") "gpt-4o-mini" (some "") obsC2 =
      ("", true, "gpt-4o-mini") ∧
    generate_insights (some "sk-live") "gpt-4o-mini" (some "") obsC2 ≠
      (generate_rule_based_insights obsC2, false, "rule-based") := by
  have heq : generate_insights (some "sk-live") "gpt-4o-mini" (some "") obsC2 =
      ("", true, "gpt-4o-mini") := by with_unfolding_all decide
  refine ⟨heq, ?_⟩
  rw [heq]
  intro hcontra
  have h2 := congrArg (fun r => r.2.1) hcontra
  simp at h2

/-- C3. For the empty observation list, `generate_insights` returns the
fixed no-data triple with `is_ai_generated = false` and the rule-based
marker, for every configured key and every AI outcome — so neither the
aggregation nor the AI attempt can influence the result. -/
theorem claim_C3 (api_key : Option String) (model : String) (outcome : Option String) :
    generate_insights api_key model outcome [] =
      (no_data_message, false, "rule-based") := rfl

/-- C4. Aggregation is order-invariant: permuting a non-empty observation
list leaves every department's statistics (count, avg_patients, avg_wait,
max_wait) unchanged. -/
theorem claim_C4 (obs₁ obs₂ : List Observation) (_h : obs₁ ≠ [])
    (hperm : obs₁.Perm obs₂) (d : String) :
    lookupAvg obs₁ d = lookupAvg obs₂ d :=
  lookupAvg_perm hperm d

/-- Witness for C4 at a concrete permutation. -/
theorem claim_C4_witness : lookupAvg obsC4a "ER" = lookupAvg obsC4b "ER" := by
  have hrev : obsC4a.reverse = obsC4b := by decide
  exact claim_C4 obsC4a obsC4b (by decide)
    (hrev ▸ (List.reverse_perm obsC4a).symm) "ER"

/-- C5. Tie-break determinism: the selected highest-wait department
attains the maximal `avg_wait`, and among all departments attaining it,
its first occurrence in the input list is earliest; the same
first-encountered-wins rule governs the highest-volume argmax,
computed independently. -/
theorem claim_C5 (observations : List Observation) (h : observations ≠ [])
    (hw hv : String × DeptAverages)
    (hhw : highest_wait_dept observations = some hw)
    (hhv : highest_volume_dept observations = some hv) :
    (∀ p ∈ dept_averages observations, p.2.avg_wait ≤ hw.2.avg_wait) ∧
    (∀ p ∈ dept_averages observations, p.2.avg_wait = hw.2.avg_wait →
      firstIdx observations hw.1 ≤ firstIdx observations p.1) ∧
    (∀ p ∈ dept_averages observations, p.2.avg_patients ≤ hv.2.avg_patients) ∧
    (∀ p ∈ dept_averages observations, p.2.avg_patients = hv.2.avg_patients →
      firstIdx observations hv.1 ≤ firstIdx observations p.1) := by
  obtain ⟨da, rest, hda⟩ :=
    List.exists_cons_of_ne_nil (dept_averages_ne_nil observations h)
  have h1 := highest_wait_eq observations da rest hda
  rw [hhw, Option.some.injEq] at h1
  have h2 := highest_volume_eq observations da rest hda
  rw [hhv, Option.some.injEq] at h2
  subst h1
  subst h2
  obtain ⟨hwb, hwt⟩ := pyMax_first_tie observations (fun p => p.2.avg_wait) da rest hda
  obtain ⟨hvb, hvt⟩ := pyMax_first_tie observations (fun p => p.2.avg_patients) da rest hda
  exact ⟨hwb, hwt, hvb, hvt⟩

/-- Witness for C5: two departments tied on `avg_wait` (60 each); the
first-appearing department "A" is selected over "B". -/
theorem claim_C5_witness : firstIdx obsC5 "A" ≤ firstIdx obsC5 "B" :=
  (claim_C5 obsC5 (by decide) ("A", ⟨5, 60, 60, 1⟩) ("B", ⟨7, 60, 60, 1⟩)
    (by with_unfolding_all decide) (by with_unfolding_all decide)).2.1
    ("B", ⟨7, 60, 60, 1⟩) (by with_unfolding_all decide) (by decide)

/-- C6. Strict bottleneck threshold: a department is listed in
`bottleneck_depts` exactly when its `avg_wait` is strictly greater than
60 (so `avg_wait = 60` is excluded), and the listed departments appear
in first-appearance order of the input. -/
theorem claim_C6 (observations : List Observation) (_h : observations ≠ []) :
    (∀ d s, lookupAvg observations d = some s →
      ((d ∈ bottleneck_depts observations ↔ s.avg_wait > 60) ∧
       (s.avg_wait = 60 → d ∉ bottleneck_depts observations))) ∧
    (bottleneck_depts observations).Pairwise
      (fun a b => firstIdx observations a < firstIdx observations b) := by
  constructor
  · intro d s hs
    have hiff := mem_bottleneck_iff observations d s hs
    refine ⟨hiff, ?_⟩
    intro h60 hmem
    have := hiff.mp hmem
    rw [h60] at this
    exact lt_irrefl _ this
  · have hsub : List.Sublist (bottleneck_depts observations)
        (keysOf (dept_averages observations)) := by
      rw [bottleneck_depts, bottlenecksOf, keysOf]
      exact (List.filter_sublist _).map Prod.fst
    have hpw : (keysOf (dept_averages observations)).Pairwise
        (fun a b => firstIdx observations a < firstIdx observations b) := by
      rw [keysOf_dept_averages]
      exact keys_pairwise observations
    exact hpw.sublist hsub

/-- Witness for C6: in `obsC6`, "ER" sits exactly at the 60-minute
threshold and is excluded; "ICU" (90 minutes) is included. -/
theorem claim_C6_witness :
    ("ER" ∈ bottleneck_depts obsC6 ↔ (⟨5, 60, 60, 1⟩ : DeptAverages).avg_wait > 60) ∧
    ((⟨5, 60, 60, 1⟩ : DeptAverages).avg_wait = 60 → "ER" ∉ bottleneck_depts obsC6) ∧
    ("ICU" ∈ bottleneck_depts obsC6 ↔ (⟨5, 90, 90, 1⟩ : DeptAverages).avg_wait > 60) := by
  have h1 := (claim_C6 obsC6 (by decide)).1 "ER" ⟨5, 60, 60, 1⟩
    (by with_unfolding_all decide)
  have h2 := (claim_C6 obsC6 (by decide)).1 "ICU" ⟨5, 90, 90, 1⟩
    (by with_unfolding_all decide)
  exact ⟨h1.1, h1.2, h2.1⟩

/-- C7 (amended).  When the highest-wait department's `avg_wait` is
exactly 30, the rule-based strategy selects the status-quo
recommendation (the monitoring tier requires `avg_wait` strictly greater
than 30). -/
theorem claim_C7_amended (observations : List Observation) (h : observations ≠ [])
    (hw : String × DeptAverages)
    (hhw : highest_wait_dept observations = some hw)
    (h30 : hw.2.avg_wait = 30) :
    recommendation_string hw.1 hw.2.avg_wait = status_quo_string ∧
    status_quo_string ∈ insight_parts observations ∧
    status_quo_string ≠ monitoring_string hw.1 := by
  have hrec : recommendation_string hw.1 hw.2.avg_wait = status_quo_string := by
    rw [h30, recommendation_string]
    norm_num
  refine ⟨hrec, ?_, ?_⟩
  · obtain ⟨o, os, rfl⟩ := List.exists_cons_of_ne_nil h
    obtain ⟨da, rest, hda⟩ :=
      List.exists_cons_of_ne_nil (dept_averages_ne_nil _ (List.cons_ne_nil o os))
    have h1 := highest_wait_eq _ da rest hda
    rw [hhw, Option.some.injEq] at h1
    have hrec2 : recommendation_string (pyMax (fun p => p.2.avg_wait) da rest).1
        (pyMax (fun p => p.2.avg_wait) da rest).2.avg_wait = status_quo_string := by
      rw [← h1]
      exact hrec
    rw [insight_parts, hda, insight_parts_core_cons, ← hrec2]
    simp
  · exact fun hcontra =>
      (by decide : (['C', 'u'] : List Char) ≠ ['M', 'o']) (congrArg strHead2 hcontra)

/-- Witness for C7 (amended) at the concrete single-observation input. -/
theorem claim_C7_witness :
    recommendation_string "ER" (30 : ℚ) = status_quo_string ∧
    status_quo_string ∈ insight_parts obsC7 ∧
    status_quo_string ≠ monitoring_string "ER" :=
  claim_C7_amended obsC7 (by decide) ("ER", ⟨5, 30, 30, 1⟩)
    (by with_unfolding_all decide) (by decide)

/-- C7 counterexample: with the highest-wait `avg_wait` exactly 30, the
monitoring-tier recommendation is NOT selected — the generated parts
contain the status-quo message and not the monitoring message. -/
theorem claim_C7_counterexample :
    highest_wait_dept obsC7 = some ("ER", ⟨5, 30, 30, 1⟩) ∧
    recommendation_string "ER" 30 = status_quo_string ∧
    monitoring_string "ER" ∉ insight_parts obsC7 :=
  ⟨by with_unfolding_all decide, by decide, by with_unfolding_all decide⟩

/-- C8. The §8 scenario: three ER observations with waits [30, 90, 60]
and patients [5, 10, 8], newest first, no AI key configured: ER's
`avg_wait` is exactly 60 with `max_wait` 90, the bottleneck list is
empty, the monitoring-tier recommendation is selected, and the result is
the rule-based triple with `is_ai_generated = false`. -/
theorem claim_C8 (model : String) (outcome : Option String) :
    lookupAvg obsC8 "ER" = some ⟨23 / 3, 60, 90, 3⟩ ∧
    bottleneck_depts obsC8 = [] ∧
    highest_wait_dept obsC8 = some ("ER", ⟨23 / 3, 60, 90, 3⟩) ∧
    recommendation_string "ER" 60 = monitoring_string "ER" ∧
    monitoring_string "ER" ∈ insight_parts obsC8 ∧
    generate_insights none model outcome obsC8 =
      (generate_rule_based_insights obsC8, false, "rule-based") :=
  ⟨by with_unfolding_all decide, by with_unfolding_all decide,
   by with_unfolding_all decide, by decide,
   by with_unfolding_all decide, rfl⟩

/-- C9. The insight text carries the bottleneck section (Finding 3) iff
it carries the staffing-tier recommendation, and both occur exactly when
the (attained) maximal per-department `avg_wait` is strictly greater
than 60. -/
theorem claim_C9 (observations : List Observation) (h : observations ≠ [])
    (hw : String × DeptAverages)
    (hhw : highest_wait_dept observations = some hw) :
    ((finding3_string (bottleneck_depts observations) ∈ insight_parts observations) ↔
      hw.2.avg_wait > 60) ∧
    ((staffing_string hw.1 ∈ insight_parts observations) ↔ hw.2.avg_wait > 60) ∧
    ((finding3_string (bottleneck_depts observations) ∈ insight_parts observations) ↔
      (staffing_string hw.1 ∈ insight_parts observations)) ∧
    (∀ p ∈ dept_averages observations, p.2.avg_wait ≤ hw.2.avg_wait) := by
  obtain ⟨o, os, rfl⟩ := List.exists_cons_of_ne_nil h
  obtain ⟨da, rest, hda⟩ :=
    List.exists_cons_of_ne_nil (dept_averages_ne_nil _ (List.cons_ne_nil o os))
  have h1 := highest_wait_eq _ da rest hda
  rw [hhw, Option.some.injEq] at h1
  subst h1
  have hiff : bottlenecksOf (da :: rest) ≠ [] ↔
      (pyMax (fun p => p.2.avg_wait) da rest).2.avg_wait > 60 := by
    constructor
    · intro hne
      have hfne : (da :: rest).filter (fun p => decide (p.2.avg_wait > 60)) ≠ [] := by
        intro hc
        rw [bottlenecksOf, hc] at hne
        simp at hne
      obtain ⟨x, hx⟩ := List.exists_mem_of_ne_nil _ hfne
      obtain ⟨hxdas, hxpred⟩ := List.mem_filter.mp hx
      have hxgt : x.2.avg_wait > 60 := by simpa using hxpred
      have hxle : x.2.avg_wait ≤ (pyMax (fun p => p.2.avg_wait) da rest).2.avg_wait :=
        pyMax_le (fun p => p.2.avg_wait) rest da x hxdas
      exact lt_of_lt_of_le hxgt hxle
    · intro hgt hnil
      have hmem := pyMax_mem (fun p => p.2.avg_wait) rest da
      have hin : (pyMax (fun p => p.2.avg_wait) da rest).1 ∈ bottlenecksOf (da :: rest) := by
        refine List.mem_map.mpr ⟨_, List.mem_filter.mpr ⟨hmem, ?_⟩, rfl⟩
        simpa using hgt
      rw [hnil] at hin
      simp at hin
  have hA : (finding3_string (bottleneck_depts (o :: os)) ∈ insight_parts (o :: os)) ↔
      bottlenecksOf (da :: rest) ≠ [] := by
    rw [insight_parts, bottleneck_depts, hda]
    exact finding3_mem_core_iff da rest o os
  have hB : (staffing_string (pyMax (fun p => p.2.avg_wait) da rest).1 ∈
      insight_parts (o :: os)) ↔
      (pyMax (fun p => p.2.avg_wait) da rest).2.avg_wait > 60 := by
    rw [insight_parts, hda]
    exact staffing_mem_core_iff da rest o os
  refine ⟨hA.trans hiff, hB, (hA.trans hiff).trans hB.symm, ?_⟩
  exact (pyMax_first_tie (o :: os) (fun p => p.2.avg_wait) da rest hda).1

/-- Witness for C9 at a concrete input above the threshold. -/
theorem claim_C9_witness :
    ((finding3_string (bottleneck_depts obsC9) ∈ insight_parts obsC9) ↔
      (⟨5, 90, 90, 1⟩ : DeptAverages).avg_wait > 60) ∧
    ((staffing_string "ER" ∈ insight_parts obsC9) ↔
      (⟨5, 90, 90, 1⟩ : DeptAverages).avg_wait > 60) := by
  have h := claim_C9 obsC9 (by decide) ("ER", ⟨5, 90, 90, 1⟩)
    (by with_unfolding_all decide)
  exact ⟨h.1, h.2.1⟩

/-- C10. `generate_insights` never mutates its input: in the
state-threaded embedding the observation list that comes back is the one
that went in, on the empty, AI and rule-based paths alike, and the
result component agrees with the plain embedding. -/
theorem claim_C10 (api_key : Option String) (model : String)
    (outcome : Option String) (observations : List Observation) :
    (generate_insights_st api_key model outcome observations).2 = observations ∧
    (generate_insights_st api_key model outcome observations).1 =
      generate_insights api_key model outcome observations := by
  rcases observations with _ | ⟨o, os⟩
  · exact ⟨rfl, rfl⟩
  · cases hk : pyTruthy api_key <;> cases outcome <;>
      simp [generate_insights_st, generate_insights, hk,
        generate_rule_based_insights_st_eq, generate_ai_insights, List.isEmpty_cons]

end QueueInsights
